import Mathlib

/-!
Verification of the CanvasFlow collaborative whiteboard core
(`src/frontend/src/pages/WhiteboardPage.js`).

The JavaScript component is embedded shallowly:

* coordinates, sizes and document versions (JS numbers) are modelled as `ℚ`;
* the duck-typed per-shape `data` payload is modelled as a total record
  `ObjData`; a field that is absent in the JS object is represented by the
  neutral value (`0`, `[]`, `""`, `false`), which also makes the JS
  falsy-defaulting idiom `data.f || c` expressible as a test against that
  neutral value;
* purely visual style fields (`stroke`, `strokeWidth`, `fill`, `align`) are
  not carried, since no behaviour of the component reads them back;
* React state (`objects`, `boardVersion`, `history`, `historyStep`,
  `socket`, `selectedId`) becomes an explicit `ClientState` record, and the
  handlers become functions `ClientState → ClientState × Option OutMsg`,
  the second component being the `board_update` payload emitted on the
  socket (if any);
* `Date.now()` is passed in as an explicit `now : ℕ` parameter.
-/

namespace CanvasFlow

/-- Shape kinds of created board objects (the values of `TOOLS` that can be
the `type` of an object: pen, rectangle, circle, arrow, text). -/
inductive ShapeType where
  | pen
  | rectangle
  | circle
  | arrow
  | text
deriving DecidableEq

/-- The kind-specific geometry payload of a board object.  All fields are
total; a field that the corresponding JS object does not carry is
represented by the neutral value of its type. -/
structure ObjData where
  x : ℚ := 0
  y : ℚ := 0
  width : ℚ := 0
  height : ℚ := 0
  radius : ℚ := 0
  points : List ℚ := []
  closed : Bool := false
  text : String := ""
  fontSize : ℚ := 0
deriving DecidableEq

/-- A board object: `{id, type, data}`. -/
structure BoardObject where
  id : String
  type : ShapeType
  data : ObjData
deriving DecidableEq

/-- An axis-aligned bounding box as returned by `getBoundingBox`. -/
structure Box where
  x : ℚ
  y : ℚ
  width : ℚ
  height : ℚ
deriving DecidableEq

/-- The payload of a `board_update` message emitted on the socket
(`board_id` is constant for one open board session and is omitted). -/
structure OutMsg where
  objects : List BoardObject
  version : ℚ
deriving DecidableEq

/-- The mutable React state of one open board session. -/
structure ClientState where
  objects : List BoardObject
  version : ℚ
  history : List (List BoardObject)
  historyStep : ℕ
  socketConnected : Bool
  selectedId : Option String
deriving DecidableEq

/-- An AI suggestion record `{id, type, title}` (the `description` field is
never read by the applier and is omitted). -/
structure Suggestion where
  id : String
  type : String
  title : String
deriving DecidableEq

/-! ### Geometry engine: `getBoundingBox` (lines 197–235) -/

/-- The body of the `for (let i = 0; i < pts.length; i += 2)` loop of the
pen/arrow branch of `getBoundingBox`, consuming the flat point list two
coordinates at a time and updating the accumulators
`(minX, maxX, minY, maxY)`.  In the one-element case the JS loop reads
`pts[i + 1]` past the end of the array, turning the y accumulators into
`NaN`; no odd-length point list is relevant to any claim, so the model
leaves the y accumulators unchanged there. -/
def penScan : List ℚ → ℚ × ℚ × ℚ × ℚ → ℚ × ℚ × ℚ × ℚ
  | [], acc => acc
  | [px], (mX, mMX, mY, mMY) => (min mX px, max mMX px, mY, mMY)
  | px :: py :: rest, (mX, mMX, mY, mMY) =>
      penScan rest (min mX px, max mMX px, min mY py, max mMY py)

/-- The pen/arrow branch of `getBoundingBox` (lines 214–228): `null` when
`pts.length < 2`, i.e. exactly on `[]` and singleton lists; otherwise the
JS accumulators start at `±Infinity` and the first loop iteration replaces
them with the first coordinate pair, which is how the model seeds them. -/
def penBox : List ℚ → Option Box
  | px :: py :: rest =>
      let r := penScan rest (px, px, py, py)
      some ⟨r.1, r.2.2.1, r.2.1 - r.1, r.2.2.2 - r.2.2.1⟩
  | _ => none

/-- `getBoundingBox(obj)` (lines 197–235).  The circle branch writes
`data.radius || 0`, which agrees with `data.radius` in this model (an
absent radius is represented by `0`); the text branch keeps the JS falsy
defaults `data.width || 120` and `data.fontSize || 20`. -/
def getBoundingBox (o : BoardObject) : Option Box :=
  match o.type with
  | .rectangle =>
      let d := o.data
      let x1 := min d.x (d.x + d.width)
      let y1 := min d.y (d.y + d.height)
      let x2 := max d.x (d.x + d.width)
      let y2 := max d.y (d.y + d.height)
      some ⟨x1, y1, x2 - x1, y2 - y1⟩
  | .circle =>
      let d := o.data
      some ⟨d.x - d.radius, d.y - d.radius, d.radius * 2, d.radius * 2⟩
  | .pen => penBox o.data.points
  | .arrow => penBox o.data.points
  | .text =>
      let d := o.data
      some ⟨d.x, d.y, if d.width = 0 then 120 else d.width,
            if d.fontSize = 0 then 20 else d.fontSize⟩

/-! ### String utilities

The component consumes prompts and titles exclusively through
`String.prototype.includes`, `toLowerCase`, and three small regular
expressions; these are embedded as executable functions on `List Char`. -/

/-- `listContainsSub pat l` is JS `l.includes(pat)` on character lists. -/
def listContainsSub (pat : List Char) : List Char → Bool
  | [] => pat.isEmpty
  | c :: rest => pat.isPrefixOf (c :: rest) || listContainsSub pat rest

/-- JS `s.includes(pat)`. -/
def strIncludes (s pat : String) : Bool :=
  listContainsSub pat.data s.data

/-- JS `s.toLowerCase()`: ASCII lowercasing character by character (the
prompts and keywords the component compares are ASCII). -/
def strToLower (s : String) : String :=
  ⟨s.data.map Char.toLower⟩

/-! ### Document model, history manager and collaboration hooks
(lines 145–151, 156–179, 463–479) -/

/-- `saveToHistory(newObjects)` (lines 156–161): truncate the history to
`historyStep + 1` entries, append the new snapshot, and point the cursor at
the last entry. -/
def saveToHistory (s : ClientState) (newObjects : List BoardObject) : ClientState :=
  let newHistory := s.history.take (s.historyStep + 1) ++ [newObjects]
  { s with history := newHistory, historyStep := newHistory.length - 1 }

/-- `broadcastUpdate(newObjects)` (lines 163–173): when a socket exists,
bump the version and emit a `board_update` message carrying the objects and
the bumped version; without a socket nothing happens. -/
def broadcastUpdate (s : ClientState) (newObjects : List BoardObject) :
    ClientState × Option OutMsg :=
  if s.socketConnected then
    ({ s with version := s.version + 1 }, some ⟨newObjects, s.version + 1⟩)
  else
    (s, none)

/-- `commitObjects(newObjects)` (lines 175–179): set the objects, push the
snapshot to history, and broadcast. -/
def commitObjects (s : ClientState) (newObjects : List BoardObject) :
    ClientState × Option OutMsg :=
  let s1 := { s with objects := newObjects }
  let s2 := saveToHistory s1 newObjects
  broadcastUpdate s2 newObjects

/-- The state after `commitObjects` (the emitted message dropped). -/
def commitFst (s : ClientState) (newObjects : List BoardObject) : ClientState :=
  (commitObjects s newObjects).1

/-- The `board_updated` socket handler (lines 145–151): replace the objects
with the received ones, and set the version when the received version is a
number (`none` models a payload whose `version` is not a number). -/
def applyBoardUpdated (s : ClientState) (objs : List BoardObject)
    (version : Option ℚ) : ClientState :=
  { s with
    objects := objs
    version := match version with
      | some v => v
      | none => s.version }

/-- `handleUndo` (lines 463–470): no-op at cursor 0; otherwise move the
cursor back, install that snapshot as the document, and broadcast it.
`history[newStep]` is modelled with default `[]`; the index is in range in
every state the component reaches. -/
def handleUndo (s : ClientState) : ClientState × Option OutMsg :=
  if s.historyStep = 0 then
    (s, none)
  else
    let newStep := s.historyStep - 1
    let newObjects := s.history.getD newStep []
    broadcastUpdate { s with historyStep := newStep, objects := newObjects } newObjects

/-- `handleRedo` (lines 472–479): no-op when the cursor is at (or past) the
last snapshot; otherwise move the cursor forward, install that snapshot,
and broadcast it. -/
def handleRedo (s : ClientState) : ClientState × Option OutMsg :=
  if (s.historyStep : ℤ) ≥ (s.history.length : ℤ) - 1 then
    (s, none)
  else
    let newStep := s.historyStep + 1
    let newObjects := s.history.getD newStep []
    broadcastUpdate { s with historyStep := newStep, objects := newObjects } newObjects

/-- The state after `handleUndo` (the emitted message dropped). -/
def undoFst (s : ClientState) : ClientState := (handleUndo s).1

/-! ### Suggestion applier (lines 237–344) -/

/-- `getPrimaryObject` (lines 237–241): the most recently created object,
i.e. the last element of `objects`. -/
def getPrimaryObject (objects : List BoardObject) : Option BoardObject :=
  objects.getLast?

/-- `applyShapeClean(target)` (lines 243–263): replace the target with a
clean rectangle matching its bounding box. -/
def applyShapeClean (s : ClientState) (target : BoardObject) (now : ℕ) :
    Bool × ClientState × Option OutMsg :=
  match getBoundingBox target with
  | none => (false, s, none)
  | some box =>
      let rect : BoardObject :=
        ⟨"rect-" ++ toString now, .rectangle,
         { x := box.x, y := box.y, width := box.width, height := box.height }⟩
      let newObjects := s.objects.filter (fun o => o.id ≠ target.id) ++ [rect]
      let (s1, m) := commitObjects s newObjects
      (true, { s1 with selectedId := some rect.id }, m)

/-- `applyAnnotation(target, suggestion)` (lines 265–285): add a centered
text label over the target's bounding box. -/
def applyAnnotation (s : ClientState) (target : BoardObject) (sugg : Suggestion)
    (now : ℕ) : Bool × ClientState × Option OutMsg :=
  match getBoundingBox target with
  | none => (false, s, none)
  | some box =>
      let label := if sugg.title.length = 0 then "Label" else sugg.title
      let txt : BoardObject :=
        ⟨"text-" ++ toString now, .text,
         { x := box.x + box.width / 2 - 60, y := box.y + box.height / 2 - 10,
           text := label, fontSize := 18, width := 120 }⟩
      let (s1, m) := commitObjects s (s.objects ++ [txt])
      (true, { s1 with selectedId := some txt.id }, m)

/-- `applyFlowExpansion(target)` (lines 287–320): add a rectangle of the
target's approximate size to its right plus a connecting arrow. -/
def applyFlowExpansion (s : ClientState) (target : BoardObject) (now : ℕ) :
    Bool × ClientState × Option OutMsg :=
  match getBoundingBox target with
  | none => (false, s, none)
  | some box =>
      let baseWidth := if box.width = 0 then 140 else box.width
      let baseHeight := if box.height = 0 then 80 else box.height
      let newRect : BoardObject :=
        ⟨"rect-" ++ toString now, .rectangle,
         { x := box.x + box.width + 80, y := box.y,
           width := baseWidth, height := baseHeight }⟩
      let sourceCenter : ℚ × ℚ := (box.x + box.width / 2, box.y + box.height / 2)
      let targetCenter : ℚ × ℚ :=
        (newRect.data.x + baseWidth / 2, newRect.data.y + baseHeight / 2)
      let newArrow : BoardObject :=
        ⟨"arrow-" ++ toString now, .arrow,
         { points := [sourceCenter.1, sourceCenter.2, targetCenter.1, targetCenter.2] }⟩
      let (s1, m) := commitObjects s (s.objects ++ [newRect, newArrow])
      (true, { s1 with selectedId := some newRect.id }, m)

/-- `applySuggestion(suggestion)` (lines 322–344): fails (leaving the state
untouched) when there is no primary object; otherwise dispatch on the
suggestion type with a title-keyword fallback. -/
def applySuggestion (s : ClientState) (sugg : Suggestion) (now : ℕ) :
    Bool × ClientState × Option OutMsg :=
  match getPrimaryObject s.objects with
  | none => (false, s, none)
  | some target =>
      let title := strToLower sugg.title
      if sugg.type = "shape_clean" then applyShapeClean s target now
      else if sugg.type = "annotation" then applyAnnotation s target sugg now
      else if sugg.type = "diagram_improvement" then applyFlowExpansion s target now
      else if strIncludes title "rectangle" then applyShapeClean s target now
      else if strIncludes title "label" then applyAnnotation s target sugg now
      else if strIncludes title "flow" then applyFlowExpansion s target now
      else (false, s, none)

/-! ### Command interpreter: `createShapeFromPrompt` (lines 519–743) -/

/-- `baseSize` (line 523). -/
def baseSize : ℚ := 150

/-- `spacing` (line 524). -/
def spacing : ℚ := 50

/-- The English number words of the quantity regex, in alternation order. -/
def numberWords : List String :=
  ["one", "two", "three", "four", "five", "six", "seven", "eight", "nine", "ten"]

/-- `quantityMap` (lines 527–530). -/
def wordQuantity : String → Option ℕ
  | "one" => some 1
  | "two" => some 2
  | "three" => some 3
  | "four" => some 4
  | "five" => some 5
  | "six" => some 6
  | "seven" => some 7
  | "eight" => some 8
  | "nine" => some 9
  | "ten" => some 10
  | _ => none

/-- `parseInt` on a run of decimal digits. -/
def parseDigits (l : List Char) : ℕ :=
  l.foldl (fun n c => 10 * n + (c.toNat - 48)) 0

/-- One attempt of the quantity regex `(\d+|one|…|ten)` at a fixed
position: a maximal digit run if the head is a digit, else the first
matching number word. -/
def quantTokenAt (l : List Char) : Option (List Char) :=
  match l with
  | [] => none
  | c :: _ =>
      if c.isDigit then some (l.takeWhile Char.isDigit)
      else numberWords.findSome? fun w =>
        if w.data.isPrefixOf l then some w.data else none

/-- Leftmost match of the quantity regex (line 533). -/
def findQuantToken : List Char → Option (List Char)
  | [] => none
  | c :: rest =>
      match quantTokenAt (c :: rest) with
      | some t => some t
      | none => findQuantToken rest

/-- Quantity parsing (lines 532–537): `quantityMap[num] || parseInt(num) || 1`. -/
def promptQuantity (lp : List Char) : ℕ :=
  match findQuantToken lp with
  | none => 1
  | some t =>
      match wordQuantity ⟨t⟩ with
      | some n => n
      | none => let n := parseDigits t; if n = 0 then 1 else n

/-- JS `\w` (ASCII word character). -/
def isWordChar (c : Char) : Bool :=
  c.isAlphanum || c = '_'

/-- The action verbs of the shape-detection regex, in alternation order. -/
def actionVerbs : List String :=
  ["make", "create", "draw", "add"]

/-- One attempt of `(?:make|create|draw|add)\s+(?:a\s+)?(\w+)` at a fixed
position, with the regex backtracking on the optional `a\s+` group
(if the word capture fails after consuming `a `, the `a` itself becomes
the capture). -/
def shapeWordAt (l : List Char) : Option String :=
  actionVerbs.findSome? fun v =>
    if v.data.isPrefixOf l then
      let rest := l.drop v.data.length
      let ws := rest.takeWhile Char.isWhitespace
      if ws.isEmpty then none
      else
        let r1 := rest.drop ws.length
        let viaOptionalA : Option String :=
          match r1 with
          | 'a' :: r2 =>
              let ws2 := r2.takeWhile Char.isWhitespace
              if ws2.isEmpty then none
              else
                let r3 := r2.drop ws2.length
                let w := r3.takeWhile isWordChar
                if w.isEmpty then none else some ⟨w⟩
          | _ => none
        match viaOptionalA with
        | some w => some w
        | none =>
            let w := r1.takeWhile isWordChar
            if w.isEmpty then none else some ⟨w⟩
    else none

/-- Leftmost match of the shape-detection regex (line 623):
`shapeToCreate`. -/
def findShapeWord : List Char → Option String
  | [] => none
  | c :: rest =>
      match shapeWordAt (c :: rest) with
      | some w => some w
      | none => findShapeWord rest

/-- The two JS quote characters (double and single quote). -/
def quoteChars : List Char := [Char.ofNat 34, Char.ofNat 39]

/-- ASCII lowercasing of a character list (the `/i` flag of the
text-content regex). -/
def lowerChars (l : List Char) : List Char :=
  l.map Char.toLower

/-- The `\s*(.+?)(?:\s|$)` tail of the `text:`/`label:` alternatives:
skip whitespace, then capture up to the next whitespace (at least one
character). -/
def afterColonCapture (l : List Char) : Option String :=
  let r := l.dropWhile Char.isWhitespace
  let w := r.takeWhile (fun c => ¬ c.isWhitespace)
  if w.isEmpty then none else some ⟨w⟩

/-- One attempt of the text-content regex
`/["'](.+?)["']|text:\s*(.+?)(?:\s|$)|label:\s*(.+?)(?:\s|$)/i`
(line 682) at a fixed position.  The lazy quoted capture is modelled as
the (nonempty) run up to the first closing quote of either kind. -/
def textTokenAt (raw : List Char) : Option String :=
  match raw with
  | [] => none
  | c :: rest =>
      if quoteChars.contains c then
        let content := rest.takeWhile (fun d => ¬ quoteChars.contains d)
        let afterContent := rest.drop content.length
        if content.isEmpty then none
        else if afterContent.isEmpty then none
        else some ⟨content⟩
      else if lowerChars (raw.take 5) = "text:".data then
        afterColonCapture (raw.drop 5)
      else if lowerChars (raw.take 6) = "label:".data then
        afterColonCapture (raw.drop 6)
      else none

/-- Leftmost match of the text-content regex. -/
def findTextToken : List Char → Option String
  | [] => none
  | c :: rest =>
      match textTokenAt (c :: rest) with
      | some t => some t
      | none => findTextToken rest

/-- Text-content extraction (lines 682–683), on the raw prompt:
default `"Text"`. -/
def extractTextContent (p : String) : String :=
  (findTextToken p.data).getD "Text"

/-- The prompt mentions the below group `{below, under, beneath}`
(line 541). -/
def hasBelowKw (lp : String) : Bool :=
  strIncludes lp "below" || strIncludes lp "under" || strIncludes lp "beneath"

/-- The prompt mentions the above group `{above, over}` (line 569). -/
def hasAboveKw (lp : String) : Bool :=
  strIncludes lp "above" || strIncludes lp "over"

/-- The prompt mentions the right group `{right, beside}` (line 596). -/
def hasRightKw (lp : String) : Bool :=
  strIncludes lp "right" || strIncludes lp "beside"

/-- The prompt mentions `left` (line 607). -/
def hasLeftKw (lp : String) : Bool :=
  strIncludes lp "left"

/-- The shape-kind search shared verbatim by the below branch
(lines 543–549) and the above branch (lines 570–576): the most recent
object of a kind explicitly mentioned in the prompt, searched with
`[...objects].reverse().find(...)`; a triangle is a closed pen path. -/
def mentionedKindRef (lp : String) (objects : List BoardObject) :
    Option BoardObject :=
  if strIncludes lp "triangle" then
    objects.reverse.find? (fun o => o.type == .pen && o.data.closed)
  else if strIncludes lp "circle" then
    objects.reverse.find? (fun o => o.type == .circle)
  else if strIncludes lp "rectangle" || strIncludes lp "square" then
    objects.reverse.find? (fun o => o.type == .rectangle)
  else none

/-- The kind search followed by the last-object fallback
(lines 550–552 and 577–579). -/
def refViaKindOrLast (lp : String) (objects : List BoardObject) :
    Option BoardObject :=
  match mentionedKindRef lp objects with
  | some o => some o
  | none => objects.getLast?

/-- The reference object `referenceObj` each directional branch of
`createShapeFromPrompt` ends up using (lines 540–552, 569–579, 596–598,
607–609): kind search plus last-object fallback for the below and above
groups, the last object alone for the right and left groups.  The branch
conditions are tested in source order. -/
def resolveReference (lp : String) (objects : List BoardObject) :
    Option BoardObject :=
  if hasBelowKw lp then refViaKindOrLast lp objects
  else if hasAboveKw lp then refViaKindOrLast lp objects
  else if hasRightKw lp then objects.getLast?
  else if hasLeftKw lp then objects.getLast?
  else none

/-- The even-indexed entries of a flat point list (the x coordinates). -/
def evenEntries : List ℚ → List ℚ
  | [] => []
  | [px] => [px]
  | px :: _ :: rest => px :: evenEntries rest

/-- The odd-indexed entries of a flat point list (the y coordinates). -/
def oddEntries : List ℚ → List ℚ
  | [] => []
  | [_] => []
  | _ :: py :: rest => py :: oddEntries rest

/-- `points.filter((_, i) => i % 2 === 0).reduce((a, b) => a + b, 0) /
(points.length / 2)` (lines 564, 591, 840, 854). -/
def penAvgX (pts : List ℚ) : ℚ :=
  (evenEntries pts).sum / ((pts.length : ℚ) / 2)

/-- `Math.max(...points.filter((_, i) => i % 2 === 1))` (line 563); the
JS value is `-Infinity` for an empty y list, which no claim reaches, so
the model returns `0` there. -/
def penMaxY (pts : List ℚ) : ℚ :=
  match oddEntries pts with
  | [] => 0
  | py :: rest => rest.foldl max py

/-- `Math.min(...points.filter((_, i) => i % 2 === 1))` (line 590); `0`
in the unreachable empty case. -/
def penMinY (pts : List ℚ) : ℚ :=
  match oddEntries pts with
  | [] => 0
  | py :: rest => rest.foldl min py

/-- The below-branch center update per reference kind (lines 554–567).
The pen case guards on the truthiness of `referenceObj.data.points`;
an absent point list leaves the viewport-center default in place. -/
def belowCenter (r : BoardObject) (c0 : ℚ × ℚ) : ℚ × ℚ :=
  match r.type with
  | .circle => (r.data.x, r.data.y + r.data.radius + baseSize / 2 + spacing)
  | .rectangle =>
      (r.data.x + r.data.width / 2,
       r.data.y + r.data.height + baseSize / 2 + spacing)
  | .pen =>
      if r.data.points = [] then c0
      else (penAvgX r.data.points, penMaxY r.data.points + baseSize / 2 + spacing)
  | _ => c0

/-- The above-branch center update per reference kind (lines 581–594). -/
def aboveCenter (r : BoardObject) (c0 : ℚ × ℚ) : ℚ × ℚ :=
  match r.type with
  | .circle => (r.data.x, r.data.y - r.data.radius - baseSize / 2 - spacing)
  | .rectangle =>
      (r.data.x + r.data.width / 2, r.data.y - baseSize / 2 - spacing)
  | .pen =>
      if r.data.points = [] then c0
      else (penAvgX r.data.points, penMinY r.data.points - baseSize / 2 - spacing)
  | _ => c0

/-- The right-branch center update (lines 598–605): only circle and
rectangle references reposition. -/
def rightCenter (r : BoardObject) (c0 : ℚ × ℚ) : ℚ × ℚ :=
  match r.type with
  | .circle => (r.data.x + r.data.radius + baseSize / 2 + spacing, r.data.y)
  | .rectangle =>
      (r.data.x + r.data.width + baseSize / 2 + spacing,
       r.data.y + r.data.height / 2)
  | _ => c0

/-- The left-branch center update (lines 609–616). -/
def leftCenter (r : BoardObject) (c0 : ℚ × ℚ) : ℚ × ℚ :=
  match r.type with
  | .circle => (r.data.x - r.data.radius - baseSize / 2 - spacing, r.data.y)
  | .rectangle =>
      (r.data.x - baseSize / 2 - spacing, r.data.y + r.data.height / 2)
  | _ => c0

/-- The `(centerX, centerY)` pair `createShapeFromPrompt` has computed by
line 618: the viewport center `(innerWidth / 2, (innerHeight - 120) / 2)`
(lines 521–522), overridden by the directional-reference logic
(lines 540–618). -/
def interpretCenter (lp : String) (objects : List BoardObject)
    (vw vh : ℚ) : ℚ × ℚ :=
  let c0 : ℚ × ℚ := (vw / 2, (vh - 120) / 2)
  let ref := resolveReference lp objects
  if hasBelowKw lp then
    match ref with
    | some r => belowCenter r c0
    | none => c0
  else if hasAboveKw lp then
    match ref with
    | some r => aboveCenter r c0
    | none => c0
  else if hasRightKw lp then
    match ref with
    | some r => rightCenter r c0
    | none => c0
  else if hasLeftKw lp then
    match ref with
    | some r => leftCenter r c0
    | none => c0
  else c0

/-- The shape construction of lines 620–695, dispatching on the captured
`shapeToCreate` word with bare-keyword fallbacks. -/
def buildPromptShape (shapeToCreate : Option String) (lp raw : String)
    (cx cy : ℚ) (now : ℕ) : Option BoardObject :=
  if shapeToCreate == some "triangle"
      || (shapeToCreate == none && strIncludes lp "triangle") then
    some ⟨"shape-" ++ toString now, .pen,
      { points := [cx, cy - baseSize / 2,
                   cx - baseSize / 2, cy + baseSize / 2,
                   cx + baseSize / 2, cy + baseSize / 2,
                   cx, cy - baseSize / 2],
        closed := true }⟩
  else if shapeToCreate == some "circle"
      || (shapeToCreate == none && strIncludes lp "circle") then
    some ⟨"shape-" ++ toString now, .circle,
      { x := cx, y := cy, radius := baseSize / 2 }⟩
  else if shapeToCreate == some "rectangle" || shapeToCreate == some "square"
      || (shapeToCreate == none
          && (strIncludes lp "rectangle" || strIncludes lp "square")) then
    some ⟨"shape-" ++ toString now, .rectangle,
      { x := cx - baseSize / 2, y := cy - baseSize / 2,
        width := baseSize, height := baseSize }⟩
  else if shapeToCreate == some "arrow"
      || (shapeToCreate == none && strIncludes lp "arrow") then
    some ⟨"shape-" ++ toString now, .arrow,
      { points := [cx - 100, cy, cx + 100, cy] }⟩
  else if shapeToCreate == some "text" || shapeToCreate == some "label"
      || (shapeToCreate == none
          && (strIncludes lp "text" || strIncludes lp "label")) then
    some ⟨"shape-" ++ toString now, .text,
      { x := cx - 50, y := cy - 20, text := extractTextContent raw,
        fontSize := 24 }⟩
  else none

/-- One iteration of the multi-instance layout loop (lines 700–734):
fresh id, row offset for `quantity > 1` (`offsetY` is always `0` in the
source), applied to the position fields of the instance's kind. -/
def layoutInstance (base : BoardObject) (quantity : ℕ) (now : ℕ) (i : ℕ) :
    BoardObject :=
  let offsetX : ℚ :=
    if quantity > 1 then
      (i : ℚ) * (baseSize + spacing)
        - ((baseSize + spacing) * (quantity : ℚ) - spacing) / 2 + baseSize / 2
    else 0
  let offsetY : ℚ := 0
  let inst := { base with id := "shape-" ++ toString now ++ "-" ++ toString i }
  match inst.type with
  | .pen =>
      { inst with data := { inst.data with
          points := inst.data.points.enum.map fun iv =>
            if iv.1 % 2 = 0 then iv.2 + offsetX else iv.2 + offsetY } }
  | .arrow =>
      { inst with data := { inst.data with
          points := inst.data.points.enum.map fun iv =>
            if iv.1 % 2 = 0 then iv.2 + offsetX else iv.2 + offsetY } }
  | _ =>
      { inst with data := { inst.data with
          x := inst.data.x + offsetX, y := inst.data.y + offsetY } }

/-- `createShapeFromPrompt(prompt)` (lines 519–743): parse quantity, the
directional reference and the shape word, build the shape at the computed
center, lay out `quantity` copies, and commit them in a single
`commitObjects` call.  Returns the JS boolean result together with the
new state and the emitted broadcast. -/
def createShapeFromPrompt (s : ClientState) (p : String) (vw vh : ℚ)
    (now : ℕ) : Bool × ClientState × Option OutMsg :=
  let lp := strToLower p
  let c := interpretCenter lp s.objects vw vh
  let quantity := promptQuantity lp.data
  let shapeToCreate := findShapeWord lp.data
  match buildPromptShape shapeToCreate lp p c.1 c.2 now with
  | none => (false, s, none)
  | some base =>
      let shapesToCreate := (List.range quantity).map (layoutInstance base quantity now)
      let (s1, m) := commitObjects s (s.objects ++ shapesToCreate)
      let s2 :=
        match shapesToCreate.getLast? with
        | some lastShape => { s1 with selectedId := some lastShape.id }
        | none => s1
      (true, s2, m)

/-! ### Helper lemmas -/

/-- The state part of a broadcast: version bumped when a socket exists,
everything else untouched. -/
lemma broadcastUpdate_fst (s : ClientState) (o : List BoardObject) :
    (broadcastUpdate s o).1
      = if s.socketConnected then { s with version := s.version + 1 } else s := by
  by_cases h : s.socketConnected <;> simp [broadcastUpdate, h]

lemma commitFst_objects (s : ClientState) (o : List BoardObject) :
    (commitFst s o).objects = o := by
  by_cases h : s.socketConnected <;>
    simp [commitFst, commitObjects, saveToHistory, broadcastUpdate, h]

lemma commitFst_history (s : ClientState) (o : List BoardObject) :
    (commitFst s o).history = s.history.take (s.historyStep + 1) ++ [o] := by
  by_cases h : s.socketConnected <;>
    simp [commitFst, commitObjects, saveToHistory, broadcastUpdate, h]

lemma commitFst_historyStep (s : ClientState) (o : List BoardObject) :
    (commitFst s o).historyStep = (s.history.take (s.historyStep + 1)).length := by
  by_cases h : s.socketConnected <;>
    simp [commitFst, commitObjects, saveToHistory, broadcastUpdate, h]

lemma undoFst_history (s : ClientState) (h : s.historyStep ≠ 0) :
    (undoFst s).history = s.history := by
  by_cases hs : s.socketConnected <;>
    simp [undoFst, handleUndo, h, broadcastUpdate, hs]

lemma undoFst_historyStep (s : ClientState) (h : s.historyStep ≠ 0) :
    (undoFst s).historyStep = s.historyStep - 1 := by
  by_cases hs : s.socketConnected <;>
    simp [undoFst, handleUndo, h, broadcastUpdate, hs]

lemma undoFst_objects (s : ClientState) (h : s.historyStep ≠ 0) :
    (undoFst s).objects = s.history.getD (s.historyStep - 1) [] := by
  by_cases hs : s.socketConnected <;>
    simp [undoFst, handleUndo, h, broadcastUpdate, hs]

lemma handleUndo_noop (s : ClientState) (h : s.historyStep = 0) :
    handleUndo s = (s, none) := by
  simp [handleUndo, h]

lemma handleRedo_noop (s : ClientState) (h : s.historyStep + 1 = s.history.length) :
    handleRedo s = (s, none) := by
  have hg : (s.historyStep : ℤ) ≥ (s.history.length : ℤ) - 1 := by omega
  simp [handleRedo, hg]

/-- `{min a b, max a b}` is the unordered pair `{a, b}`. -/
lemma pair_min_max (a b : ℚ) : ({min a b, max a b} : Set ℚ) = {a, b} := by
  rcases le_total a b with h | h
  · rw [min_eq_left h, max_eq_right h]
  · rw [min_eq_right h, max_eq_left h, Set.pair_comm]

/-! ### Claims about the collaboration handler -/

/-- Claim C1: for every local document state and every received
`board_updated` event carrying an objects list and a numeric version, the
handler replaces the client's objects wholesale with exactly the received
objects and sets the client's version to the received version, regardless
of the prior objects and version. -/
theorem c1_board_updated_full_overwrite (s : ClientState)
    (objs : List BoardObject) (v : ℚ) :
    (applyBoardUpdated s objs (some v)).objects = objs
    ∧ (applyBoardUpdated s objs (some v)).version = v :=
  ⟨rfl, rfl⟩

/-- Claim C10: applying a received `board_updated` event leaves the local
undo/redo history (the snapshot list and the cursor) completely unchanged,
as well as the socket and selection state: only objects and version are
replaced, so a remote update never becomes an undoable local step. -/
theorem c10_remote_update_preserves_history (s : ClientState)
    (objs : List BoardObject) (v : Option ℚ) :
    (applyBoardUpdated s objs v).history = s.history
    ∧ (applyBoardUpdated s objs v).historyStep = s.historyStep
    ∧ (applyBoardUpdated s objs v).socketConnected = s.socketConnected
    ∧ (applyBoardUpdated s objs v).selectedId = s.selectedId :=
  ⟨rfl, rfl, rfl, rfl⟩

/-- A board object used in concrete counterexamples and witnesses. -/
def wObj : BoardObject := ⟨"w", .circle, {}⟩

/-- Claim C2 fails as stated: on a client whose socket is not (yet)
connected, `commitObjects` commits the mutation — the objects change and a
history entry is pushed — but `broadcastUpdate` leaves the version
untouched, so the version does not strictly increase. -/
theorem c2_counterexample_no_socket_commit :
    (commitObjects ⟨[], 0, [[]], 0, false, none⟩ [wObj]).1.objects = [wObj]
    ∧ (commitObjects ⟨[], 0, [[]], 0, false, none⟩ [wObj]).1.history = [[], [wObj]]
    ∧ (commitObjects ⟨[], 0, [[]], 0, false, none⟩ [wObj]).1.version = 0
    ∧ ¬ (0 : ℚ) < (commitObjects ⟨[], 0, [[]], 0, false, none⟩ [wObj]).1.version := by
  refine ⟨rfl, rfl, rfl, ?_⟩
  simp [commitObjects, saveToHistory, broadcastUpdate]

/-- Claim C2, amended: on a client whose socket is connected, every commit
strictly increases the version (by exactly one); on a client without a
socket the commit leaves the version unchanged. -/
theorem c2_version_increase_needs_socket (objs : List BoardObject) (v : ℚ)
    (h : List (List BoardObject)) (k : ℕ) (sel : Option String)
    (newObjects : List BoardObject) :
    (commitObjects ⟨objs, v, h, k, true, sel⟩ newObjects).1.version = v + 1
    ∧ v < (commitObjects ⟨objs, v, h, k, true, sel⟩ newObjects).1.version
    ∧ (commitObjects ⟨objs, v, h, k, false, sel⟩ newObjects).1.version = v := by
  refine ⟨rfl, ?_, rfl⟩
  have : (commitObjects ⟨objs, v, h, k, true, sel⟩ newObjects).1.version = v + 1 := rfl
  rw [this]
  exact lt_add_one v

/-! ### Claims about the suggestion applier -/

/-- Claim C5: applying any suggestion to a board whose objects list is
empty fails (there is no target) and returns the state entirely unchanged
with no broadcast — no commit is performed on the failure path, so objects
and version are untouched. -/
theorem c5_apply_suggestion_empty_board (v : ℚ) (h : List (List BoardObject))
    (k : ℕ) (sock : Bool) (sel : Option String) (sugg : Suggestion) (now : ℕ) :
    applySuggestion ⟨[], v, h, k, sock, sel⟩ sugg now
      = (false, ⟨[], v, h, k, sock, sel⟩, none) :=
  rfl

/-! ### Claims about the geometry engine -/

/-- Claim C6: for every rectangle object, including those with negative
width and/or height, `getBoundingBox` returns a box with non-negative
width and height spanning the same two corners as the stored rectangle:
per axis, the box's two edge coordinates are exactly the stored pair of
corner coordinates. -/
theorem c6_rectangle_box_normalized (idv : String) (x y w h : ℚ) :
    getBoundingBox ⟨idv, .rectangle, { x := x, y := y, width := w, height := h }⟩
      = some ⟨min x (x + w), min y (y + h),
              max x (x + w) - min x (x + w), max y (y + h) - min y (y + h)⟩
    ∧ 0 ≤ max x (x + w) - min x (x + w)
    ∧ 0 ≤ max y (y + h) - min y (y + h)
    ∧ ({min x (x + w), min x (x + w) + (max x (x + w) - min x (x + w))} : Set ℚ)
        = {x, x + w}
    ∧ ({min y (y + h), min y (y + h) + (max y (y + h) - min y (y + h))} : Set ℚ)
        = {y, y + h} := by
  refine ⟨rfl, ?_, ?_, ?_, ?_⟩
  · exact sub_nonneg.2 (min_le_max)
  · exact sub_nonneg.2 (min_le_max)
  · rw [add_sub_cancel]
    exact pair_min_max x (x + w)
  · rw [add_sub_cancel]
    exact pair_min_max y (y + h)

/-- Flatten a list of coordinate pairs into the flat `[x, y, x, y, …]`
representation the component stores. -/
def pairsFlatten : List (ℚ × ℚ) → List ℚ
  | [] => []
  | (a, b) :: ps => a :: b :: pairsFlatten ps

/-- On a flat list of complete pairs, the JS min/max loop computes the
component-wise folds over the x and y coordinates. -/
lemma penScan_pairsFlatten (ps : List (ℚ × ℚ)) (mX mMX mY mMY : ℚ) :
    penScan (pairsFlatten ps) (mX, mMX, mY, mMY)
      = ((ps.map Prod.fst).foldl min mX, (ps.map Prod.fst).foldl max mMX,
         (ps.map Prod.snd).foldl min mY, (ps.map Prod.snd).foldl max mMY) := by
  induction ps generalizing mX mMX mY mMY with
  | nil => rfl
  | cons p ps ih =>
      obtain ⟨a, b⟩ := p
      simpa [pairsFlatten, penScan] using ih (min mX a) (max mMX a) (min mY b) (max mMY b)

/-- Claim C7 fails as stated: a pen object whose point list holds a single
coordinate pair — two numbers, hence fewer than the four numbers the claim
requires for a box — still gets a (degenerate) bounding box, because the
code tests `pts.length < 2` on the flat number list, not on pairs. -/
theorem c7_counterexample_single_pair :
    getBoundingBox ⟨"p", .pen, { points := [5, 7] }⟩ = some ⟨5, 7, 0, 0⟩
    ∧ ([(5 : ℚ), 7].length < 4) := by
  constructor
  · norm_num [getBoundingBox, penBox, penScan]
  · decide

/-- Claim C7, amended: for every pen or arrow object, `getBoundingBox`
returns absent exactly when the flat point list contains fewer than 2
numbers (i.e. fewer than one complete coordinate pair), and on a list of
at least one complete pair it returns the box from the minimum to the
maximum over all x coordinates and all y coordinates independently. -/
theorem c7_pen_arrow_box (idv : String) (t : ShapeType)
    (ht : t = .pen ∨ t = .arrow) (pts : List ℚ) :
    (getBoundingBox ⟨idv, t, { points := pts }⟩ = none ↔ pts.length < 2)
    ∧ (∀ (a b : ℚ) (ps : List (ℚ × ℚ)), pts = pairsFlatten ((a, b) :: ps) →
        getBoundingBox ⟨idv, t, { points := pts }⟩
          = some ⟨(ps.map Prod.fst).foldl min a, (ps.map Prod.snd).foldl min b,
                  (ps.map Prod.fst).foldl max a - (ps.map Prod.fst).foldl min a,
                  (ps.map Prod.snd).foldl max b - (ps.map Prod.snd).foldl min b⟩) := by
  constructor
  · rcases ht with rfl | rfl <;>
      rcases pts with _ | ⟨px, _ | ⟨py, rest⟩⟩ <;>
      simp [getBoundingBox, penBox]
  · intro a b ps hpts
    subst hpts
    rcases ht with rfl | rfl <;>
      simp [getBoundingBox, penBox, pairsFlatten, penScan_pairsFlatten]

/-- Witness for the amended C7 at the concrete point list `[1, 2, 3, 4]`
(two pairs): the box spans x ∈ [1, 3], y ∈ [2, 4]. -/
theorem c7_pen_arrow_box_witness :
    getBoundingBox ⟨"p", .pen, { points := [1, 2, 3, 4] }⟩ = some ⟨1, 2, 2, 2⟩ := by
  have h := (c7_pen_arrow_box "p" .pen (Or.inl rfl) [1, 2, 3, 4]).2 1 2 [(3, 4)] rfl
  rw [h]
  norm_num

/-! ### Claims about the history manager -/

/-- Claim C3: from every initial history state, after
`commit(A); commit(B); undo(); commit(C)` a `redo()` is a no-op (snapshot
B is unreachable) and a subsequent `undo()` returns snapshot A; in
general, commit truncates the snapshots to `cursor + 1`, appends the new
snapshot and sets the cursor to the last index, `undo()` is a no-op at
cursor 0, and `redo()` is a no-op at the last index. -/
theorem c3_history_linear_undo_redo (s : ClientState)
    (A B C : List BoardObject) :
    (commitFst s A).history = s.history.take (s.historyStep + 1) ++ [A]
    ∧ (commitFst s A).historyStep = (commitFst s A).history.length - 1
    ∧ (s.historyStep = 0 → handleUndo s = (s, none))
    ∧ (s.historyStep + 1 = s.history.length → handleRedo s = (s, none))
    ∧ handleRedo (commitFst (undoFst (commitFst (commitFst s A) B)) C)
        = (commitFst (undoFst (commitFst (commitFst s A) B)) C, none)
    ∧ (undoFst (commitFst (undoFst (commitFst (commitFst s A) B)) C)).objects = A := by
  set t := s.history.take (s.historyStep + 1) with ht
  have h1his : (commitFst s A).history = t ++ [A] := commitFst_history s A
  have h1step : (commitFst s A).historyStep = t.length := by
    rw [commitFst_historyStep, ht]
  have h2his : (commitFst (commitFst s A) B).history = (t ++ [A]) ++ [B] := by
    rw [commitFst_history, h1step, h1his]
    congr 1
    have : t.length + 1 = (t ++ [A]).length := by simp
    rw [this, List.take_length]
  have h2step : (commitFst (commitFst s A) B).historyStep = t.length + 1 := by
    rw [commitFst_historyStep, h1step, h1his]
    have : t.length + 1 = (t ++ [A]).length := by simp
    rw [this, List.take_length]
  have h2ne : (commitFst (commitFst s A) B).historyStep ≠ 0 := by
    rw [h2step]; exact Nat.succ_ne_zero _
  have h3his : (undoFst (commitFst (commitFst s A) B)).history = (t ++ [A]) ++ [B] := by
    rw [undoFst_history _ h2ne, h2his]
  have h3step : (undoFst (commitFst (commitFst s A) B)).historyStep = t.length := by
    rw [undoFst_historyStep _ h2ne, h2step]
    omega
  have h4his : (commitFst (undoFst (commitFst (commitFst s A) B)) C).history
      = (t ++ [A]) ++ [C] := by
    rw [commitFst_history, h3step, h3his]
    congr 1
    have : t.length + 1 = (t ++ [A]).length := by simp
    rw [this, List.take_left]
  have h4step : (commitFst (undoFst (commitFst (commitFst s A) B)) C).historyStep
      = t.length + 1 := by
    rw [commitFst_historyStep, h3step, h3his]
    have : t.length + 1 = (t ++ [A]).length := by simp
    rw [this, List.take_left]
  have h4ne : (commitFst (undoFst (commitFst (commitFst s A) B)) C).historyStep ≠ 0 := by
    rw [h4step]; exact Nat.succ_ne_zero _
  have hA : ((t ++ [A]) ++ [C]).getD t.length [] = A := by
    rw [List.getD_append _ _ _ _ (by simp),
        List.getD_append_right _ _ _ _ (le_refl _)]
    simp
  refine ⟨h1his, ?_, handleUndo_noop s, handleRedo_noop s, ?_, ?_⟩
  · rw [h1his, h1step]
    simp
  · apply handleRedo_noop
    rw [h4step, h4his]
    simp
  · rw [undoFst_objects _ h4ne, h4step, h4his]
    simpa using hA

/-- Witness for C3 at a concrete state: at history `[[]]` with cursor 0,
both `undo()` and `redo()` are no-ops. -/
theorem c3_history_linear_undo_redo_witness :
    handleUndo ⟨[], 0, [[]], 0, false, none⟩ = (⟨[], 0, [[]], 0, false, none⟩, none)
    ∧ handleRedo ⟨[], 0, [[]], 0, false, none⟩ = (⟨[], 0, [[]], 0, false, none⟩, none) := by
  have h := c3_history_linear_undo_redo ⟨[], 0, [[]], 0, false, none⟩ [] [] []
  exact ⟨h.2.2.1 rfl, h.2.2.2.1 rfl⟩

/-- Claim C4: away from the boundary, `undo()` and `redo()` install the
selected snapshot as the document and broadcast it (when a socket is
connected), but leave the snapshot list unchanged and push no new history
entry — only the cursor moves. -/
theorem c4_undo_redo_frame (s : ClientState) :
    (s.historyStep ≠ 0 →
      (undoFst s).history = s.history
      ∧ (undoFst s).historyStep = s.historyStep - 1
      ∧ (undoFst s).objects = s.history.getD (s.historyStep - 1) []
      ∧ (s.socketConnected = true →
          (handleUndo s).2 = some ⟨s.history.getD (s.historyStep - 1) [], s.version + 1⟩))
    ∧ ((s.historyStep : ℤ) < (s.history.length : ℤ) - 1 →
      (handleRedo s).1.history = s.history
      ∧ (handleRedo s).1.historyStep = s.historyStep + 1
      ∧ (handleRedo s).1.objects = s.history.getD (s.historyStep + 1) []
      ∧ (s.socketConnected = true →
          (handleRedo s).2 = some ⟨s.history.getD (s.historyStep + 1) [], s.version + 1⟩)) := by
  constructor
  · intro h
    refine ⟨undoFst_history s h, undoFst_historyStep s h, undoFst_objects s h, ?_⟩
    intro hs
    simp [handleUndo, h, broadcastUpdate, hs]
  · intro h
    have hg : ¬ ((s.historyStep : ℤ) ≥ (s.history.length : ℤ) - 1) := by omega
    unfold handleRedo
    rw [if_neg hg]
    refine ⟨?_, ?_, ?_, fun hs => ?_⟩ <;>
      by_cases hsc : s.socketConnected <;>
      simp_all [broadcastUpdate]

/-- Witness for C4 at concrete states: an undo at cursor 1 over history
`[[], [wObj]]` and a redo at cursor 0 over the same history. -/
theorem c4_undo_redo_frame_witness :
    (undoFst ⟨[wObj], 0, [[], [wObj]], 1, true, none⟩).history = [[], [wObj]]
    ∧ (undoFst ⟨[wObj], 0, [[], [wObj]], 1, true, none⟩).objects = []
    ∧ (handleRedo ⟨[], 0, [[], [wObj]], 0, true, none⟩).1.historyStep = 1
    ∧ (handleRedo ⟨[], 0, [[], [wObj]], 0, true, none⟩).1.objects = [wObj] := by
  have h1 := (c4_undo_redo_frame ⟨[wObj], 0, [[], [wObj]], 1, true, none⟩).1 (by decide)
  have h2 := (c4_undo_redo_frame ⟨[], 0, [[], [wObj]], 0, true, none⟩).2 (by decide)
  exact ⟨h1.1, h1.2.2.1, h2.2.1, h2.2.2.1⟩

/-! ### Claims about the command interpreter -/

/-- The reference rectangle of the spatial-placement test in the spec. -/
def c9Rect : BoardObject := ⟨"r", .rectangle, { x := 100, y := 100, width := 50, height := 50 }⟩

/-- Claim C9: on a board whose reference rectangle is
`{x: 100, y: 100, width: 50, height: 50}`, interpreting
"add a circle below" creates a circle centered at `x = 125` (the
rectangle's horizontal center) and
`y = 100 + 50 + baseSize / 2 + spacing` (the rectangle's bottom edge plus
half the new size plus the fixed spacing). -/
theorem c9_circle_below_rectangle (vw vh : ℚ) (now : ℕ) :
    (createShapeFromPrompt ⟨[c9Rect], 0, [[c9Rect]], 0, true, none⟩
        "add a circle below" vw vh now).1 = true
    ∧ (createShapeFromPrompt ⟨[c9Rect], 0, [[c9Rect]], 0, true, none⟩
        "add a circle below" vw vh now).2.1.objects
      = [c9Rect,
         ⟨"shape-" ++ toString now ++ "-" ++ toString 0, .circle,
          { x := 125, y := 100 + 50 + baseSize / 2 + spacing,
            radius := baseSize / 2 }⟩] := by
  constructor
  · rfl
  · have key : (createShapeFromPrompt ⟨[c9Rect], 0, [[c9Rect]], 0, true, none⟩
          "add a circle below" vw vh now).2.1.objects
        = [c9Rect,
           ⟨"shape-" ++ toString now ++ "-" ++ toString 0, .circle,
            { x := 100 + 50 / 2 + 0, y := 100 + 50 + baseSize / 2 + spacing + 0,
              radius := baseSize / 2 }⟩] := rfl
    rw [key]
    norm_num

/-- Searching a reversed list for the first match finds the last matching
element of the original list. -/
lemma reverse_find?_eq_filter_getLast? {α : Type} (l : List α) (p : α → Bool) :
    l.reverse.find? p = (l.filter p).getLast? := by
  induction l using List.reverseRecOn with
  | nil => rfl
  | append_singleton l' a ih =>
      rw [List.reverse_append, List.filter_append]
      by_cases hpa : p a
      · simp [List.find?_cons_of_pos _ hpa, List.filter_cons, hpa, List.getLast?_concat]
      · simp only [List.reverse_singleton, List.singleton_append,
          List.find?_cons_of_neg _ hpa, ih, List.filter_cons, hpa]
        simp

/-- The most recent object of the kind mentioned in the prompt, phrased as
"the last element of the sublist of objects of that kind" (the vocabulary
of the claim), with the kind precedence of the source
(triangle, then circle, then rectangle/square). -/
def mentionedKindMostRecent (lp : String) (objects : List BoardObject) :
    Option BoardObject :=
  if strIncludes lp "triangle" then
    (objects.filter (fun o => o.type == .pen && o.data.closed)).getLast?
  else if strIncludes lp "circle" then
    (objects.filter (fun o => o.type == .circle)).getLast?
  else if strIncludes lp "rectangle" || strIncludes lp "square" then
    (objects.filter (fun o => o.type == .rectangle)).getLast?
  else none

lemma mentionedKindRef_eq_mostRecent (lp : String) (objects : List BoardObject) :
    mentionedKindRef lp objects = mentionedKindMostRecent lp objects := by
  unfold mentionedKindRef mentionedKindMostRecent
  split_ifs <;> first | rfl | exact reverse_find?_eq_filter_getLast? _ _

/-- The reference-resolution rule exactly as claim C8 states it: for a
prompt containing a directional keyword from any of the four groups, first
the most recent object of a shape kind explicitly mentioned in the prompt,
and only when no kind is mentioned or found the most recently created
object. -/
def claimStatedReference (lp : String) (objects : List BoardObject) :
    Option BoardObject :=
  if hasBelowKw lp || hasAboveKw lp || hasRightKw lp || hasLeftKw lp then
    match mentionedKindRef lp objects with
    | some o => some o
    | none => objects.getLast?
  else none

/-- The reference-resolution rule as amended: the kind-first search only
serves the below/under/beneath and above/over groups; for right/beside and
left prompts the reference is always the most recently created object. -/
def amendedReference (lp : String) (objects : List BoardObject) :
    Option BoardObject :=
  if hasBelowKw lp || hasAboveKw lp then
    match mentionedKindMostRecent lp objects with
    | some o => some o
    | none => objects.getLast?
  else if hasRightKw lp || hasLeftKw lp then objects.getLast?
  else none

/-- The circle of the C8 counterexample board. -/
def c8Circ : BoardObject := ⟨"c1", .circle, { x := 0, y := 0, radius := 10 }⟩

/-- The rectangle (most recent object) of the C8 counterexample board. -/
def c8Rect : BoardObject := ⟨"r1", .rectangle, { x := 1000, y := 1000, width := 50, height := 50 }⟩

/-- Claim C8 fails as stated: on the prompt
"add a square right of the circle" over a board holding a circle and then
a rectangle, the claim's rule resolves the explicitly mentioned circle,
but the code's right/beside branch performs no kind search and resolves
the most recent object — the rectangle — and accordingly places the new
shape beside the rectangle, not the circle. -/
theorem c8_counterexample_right_ignores_kind :
    resolveReference "add a square right of the circle" [c8Circ, c8Rect] = some c8Rect
    ∧ claimStatedReference "add a square right of the circle" [c8Circ, c8Rect] = some c8Circ
    ∧ c8Rect ≠ c8Circ
    ∧ interpretCenter "add a square right of the circle" [c8Circ, c8Rect] 1024 768
        = (1175, 1025) := by
  refine ⟨by decide, by decide, by decide, ?_⟩
  have key : interpretCenter "add a square right of the circle" [c8Circ, c8Rect] 1024 768
      = (1000 + 50 + baseSize / 2 + spacing, 1000 + 50 / 2) := rfl
  rw [key]
  norm_num [baseSize, spacing]

/-- Claim C8, amended: the code's reference resolution agrees everywhere
with the amended rule (kind-first search with last-object fallback for
below/above prompts, the most recent object for right/left prompts), and
when no reference resolves — e.g. on an empty board — the interpreter
keeps the viewport's geometric center. -/
theorem c8_reference_resolution_amended (lp : String)
    (objects : List BoardObject) (vw vh : ℚ) :
    resolveReference lp objects = amendedReference lp objects
    ∧ interpretCenter lp [] vw vh = (vw / 2, (vh - 120) / 2) := by
  have hnil : resolveReference lp [] = none := by
    unfold resolveReference refViaKindOrLast
    rw [mentionedKindRef_eq_mostRecent]
    unfold mentionedKindMostRecent
    split_ifs <;> rfl
  constructor
  · unfold resolveReference amendedReference refViaKindOrLast
    rw [mentionedKindRef_eq_mostRecent]
    by_cases hb : hasBelowKw lp <;> by_cases ha : hasAboveKw lp <;>
      by_cases hr : hasRightKw lp <;> by_cases hl : hasLeftKw lp <;>
      simp [hb, ha, hr, hl]
  · unfold interpretCenter
    rw [hnil]
    split_ifs <;> rfl

end CanvasFlow
